import Mathlib

/-!
Verification development for `src/script.js` (German learning app).

Shallow embedding conventions:
- `localStorage` is a `Store`: an association list from string keys to string
  values, most recent write first (lookup takes the first match, so a cons
  models `setItem`'s overwrite semantics).
- `JSON.parse` / `JSON.stringify` are platform functions, not repository code,
  so the storage accessor is parameterised over `parse : String → Option α`
  (`none` models a thrown parse error, which the source catches) and
  `stringify : α → String`; theorems take the needed round-trip facts as
  hypotheses and witnesses instantiate them with concrete codecs.
- A possible `localStorage.setItem` failure (e.g. quota exceeded) is modelled
  by an oracle `fail : String → String → Bool`; `Except.error ()` models an
  exception propagating to the caller.
- JS truthiness of a string (`item ? … : …`, `x || d`) is `s ≠ ""` on present
  values and false on `null`/`undefined` (modelled as `Option.none`).
- DOM side effects (class toggling, textContent, colors) are elided; the
  embedded functions return the data those effects display.
-/

set_option autoImplicit false

/-- The browser local storage: keys to raw string values, newest first. -/
abbrev Store := List (String × String)

namespace Store

/-- Embeds `localStorage.getItem(key)`: first matching entry, `none` models `null`. -/
def getItem (st : Store) (key : String) : Option String :=
  (st.find? (fun p => p.1 == key)).map (fun p => p.2)

/-- Embeds `localStorage.setItem(key, val)` with a failure oracle `fail` (quota
errors and the like); on failure the browser throws and the store is
unchanged. -/
def setItem (fail : String → String → Bool) (st : Store) (key val : String) :
    Except Unit Store :=
  if fail key val then Except.error () else Except.ok ((key, val) :: st)

end Store

namespace storage

/-- Embeds `storage.get(key, fallback)` from `src/script.js` lines 48-56: reads the
raw item; `null` or `""` (falsy) gives the fallback, otherwise the item is
parsed, and a parse error is caught (modelled by `parse item = none`) and the
fallback returned. -/
def get {α : Type} (parse : String → Option α) (st : Store) (key : String)
    (fallback : α) : α :=
  match Store.getItem st key with
  | some item =>
      if item = "" then fallback
      else
        match parse item with
        | some v => v
        | none => fallback
  | none => fallback

/-- Embeds `storage.set(key, value)` from lines 57-63: stringifies and writes; a
write failure is caught and logged, leaving the prior store untouched. -/
def set {α : Type} (stringify : α → String) (fail : String → String → Bool)
    (st : Store) (key : String) (value : α) : Store :=
  match Store.setItem fail st key (stringify value) with
  | Except.ok st2 => st2
  | Except.error _ => st

/-- Embeds `storage.getString(key)` from line 64: raw passthrough to `getItem`. -/
def getString (st : Store) (key : String) : Option String :=
  Store.getItem st key

/-- Embeds `storage.setString(key, val)` from line 65: raw passthrough to `setItem`
with no try/catch, so a write failure propagates to the caller. -/
def setString (fail : String → String → Bool) (st : Store) (key val : String) :
    Except Unit Store :=
  Store.setItem fail st key val

end storage

/-- The key `APP_CONFIG.keys.lang`. -/
def langKey : String := "deCourseLang"

/-- The key `APP_CONFIG.keys.progress`. -/
def progressKey : String := "deCourseProgress"

/-- The key stem `APP_CONFIG.keys.notesPrefix` (per-day note keys). -/
def notesKeyBase : String := "deCourseNotesDay_"

/-- The default `APP_CONFIG.defaults.lang`. -/
def defaultLang : String := "en"

/-- The parsed progress object: day identifiers to state strings (a JS plain
object, here an association list with first-match lookup). -/
abbrev ProgressMap := List (String × String)

/-- JS property read `data[day]`: `none` models `undefined`. -/
def ProgressMap.getProp (m : ProgressMap) (day : String) : Option String :=
  (m.find? (fun p => p.1 == day)).map (fun p => p.2)

/-- JS property write `data[day] = state`: overwrites any previous binding. -/
def ProgressMap.setProp (m : ProgressMap) (day state : String) : ProgressMap :=
  (day, state) :: m.filter (fun p => !(p.1 == day))

/-- JS `v || d` on an optional string: `undefined` and `""` are falsy. -/
def jsOrString (v : Option String) (d : String) : String :=
  match v with
  | some s => if s = "" then d else s
  | none => d

/-- Embeds `GermanLearningApp.saveProgress(day, state)`, lines 184-188:
read-modify-write of the stored progress object. -/
def saveProgress (parse : String → Option ProgressMap)
    (stringify : ProgressMap → String) (fail : String → String → Bool)
    (st : Store) (day state : String) : Store :=
  let data := storage.get parse st progressKey []
  storage.set stringify fail st progressKey (data.setProp day state)

/-- The state a day card renders in `initIndexProgress` (line 157):
`progressData[day] || "incomplete"`. -/
def readCardState (parse : String → Option ProgressMap) (st : Store)
    (day : String) : String :=
  jsOrString ((storage.get parse st progressKey []).getProp day) "incomplete"

/-- The raw stored status read at the top of `initDayPage` (line 195). -/
def dayCurrentStatus (parse : String → Option ProgressMap) (st : Store)
    (day : String) : Option String :=
  (storage.get parse st progressKey []).getProp day

/-- Embeds `GermanLearningApp.initDayPage(day)`, lines 193-203 (storage effect only;
the badge refresh writes no storage): auto-marks `in-progress` when the
current status is falsy (`undefined` or `""`) or equals `"incomplete"`. -/
def initDayPage (parse : String → Option ProgressMap)
    (stringify : ProgressMap → String) (fail : String → String → Bool)
    (st : Store) (day : String) : Store :=
  let currentStatus := dayCurrentStatus parse st day
  if currentStatus = none ∨ currentStatus = some "" ∨
      currentStatus = some "incomplete" then
    saveProgress parse stringify fail st day "in-progress"
  else st

/-- The state used by `updateDayStatusLabel` (line 210):
`progressData[day] || "in-progress"`. -/
def badgeState (parse : String → Option ProgressMap) (st : Store)
    (day : String) : String :=
  jsOrString ((storage.get parse st progressKey []).getProp day) "in-progress"

/-- The `labels.en` table from lines 213-217. -/
def enTable : List (String × String) :=
  [("completed", "Status: Completed"),
   ("in-progress", "Status: In Progress"),
   ("incomplete", "Status: Incomplete")]

/-- The `labels.hi` table from lines 218-222. -/
def hiTable : List (String × String) :=
  [("completed", "स्थिति: पूरा"),
   ("in-progress", "स्थिति: चल रहा है"),
   ("incomplete", "स्थिति: शुरू नहीं")]

/-- The `labels` object from lines 212-223. -/
def statusLabels : List (String × List (String × String)) :=
  [("en", enTable), ("hi", hiTable)]

/-- JS property read `tbl[key]` on a string-valued object. -/
def jsIndex (tbl : List (String × String)) (key : String) : Option String :=
  (tbl.find? (fun p => p.1 == key)).map (fun p => p.2)

/-- The label expression of line 225,
`labels[currentLang][state] || labels.en[state]`: when `labels[currentLang]`
is `undefined` (language outside the table) the inner index throws a
`TypeError`, modelled by `Except.error ()`; otherwise the language entry is
taken, falling back to the English entry when it is falsy. -/
def labelTextOf (lang state : String) : Except Unit (Option String) :=
  match (statusLabels.find? (fun p => p.1 == lang)).map (fun p => p.2) with
  | none => Except.error ()
  | some tbl =>
      match jsIndex tbl state with
      | some s => if s = "" then Except.ok (jsIndex enTable state)
                  else Except.ok (some s)
      | none => Except.ok (jsIndex enTable state)

/-- Embeds `GermanLearningApp.updateDayStatusLabel(day)`, lines 205-234, as the badge
text it computes (DOM assignment elided): reads the badge state then the
label table keyed by the current language. -/
def updateDayStatusLabelText (parse : String → Option ProgressMap)
    (st : Store) (lang day : String) : Except Unit (Option String) :=
  labelTextOf lang (badgeState parse st day)

/-- Embeds `GermanLearningApp.initLanguage()` lines 105-110 (state computation only):
validates the persisted preference against {en, hi}, defaulting to `en`. -/
def initLanguage (st : Store) : String :=
  match storage.getString st langKey with
  | some savedLang =>
      if savedLang = "en" ∨ savedLang = "hi" then savedLang else defaultLang
  | none => defaultLang

/-- Embeds `GermanLearningApp.setLanguage(lang)`, lines 124-133 (DOM re-render and
badge refresh elided): sets the in-memory language to `lang` unconditionally,
then persists it through the uncaught raw `setString`. Returns the new
in-memory language together with the write's outcome. -/
def setLanguage (fail : String → String → Bool) (st : Store) (lang : String) :
    String × Except Unit Store :=
  (lang, storage.setString fail st langKey lang)

/-- The value the notes textarea holds after `initNotes(day)` (lines 301-305)
on a fresh page load (markup-initial value `""`): `if (savedNotes)
textarea.value = savedNotes` leaves the initial value when the saved string is
`null` or `""`. -/
def notesLoadedValue (st : Store) (day : String) : String :=
  match storage.getString st (notesKeyBase ++ day) with
  | some savedNotes => if savedNotes = "" then "" else savedNotes
  | none => ""

/-- The body of the debounced save handler (line 309):
`storage.setString(storageKey, e.target.value)`. -/
def saveNote (fail : String → String → Bool) (st : Store) (day v : String) :
    Except Unit Store :=
  storage.setString fail st (notesKeyBase ++ day) v

/-- One pending debounce timer carrying the last event's value: processing the
remaining `(time, value)` events, the pending write scheduled at `t + wait`
fires (emitting its value) only if the next event does not arrive before the
fire time — `clearTimeout` in `debounce` (lines 32-42) cancels it otherwise —
and the final pending write always fires once input goes quiescent. -/
def debAux (wait t : Nat) (v : String) : List (Nat × String) → List String
  | [] => [v]
  | (t2, v2) :: rest =>
      if t + wait ≤ t2 then v :: debAux wait t2 v2 rest
      else debAux wait t2 v2 rest

/-- The values written by the debounced function over a timed event trace,
followed by quiescence. -/
def debRun (wait : Nat) : List (Nat × String) → List String
  | [] => []
  | (t, v) :: rest => debAux wait t v rest

/-- Every gap between consecutive events is shorter than `wait`. -/
def rapid (wait : Nat) : List (Nat × String) → Bool
  | [] => true
  | [_] => true
  | (t, _) :: (t2, v2) :: rest =>
      decide (t2 < t + wait) && rapid wait ((t2, v2) :: rest)

/-- The storage writes performed by the notes autosave handler installed by
`initNotes` (lines 307-313): the debounce wait is 500 and each fired timer
writes the event's value under the day's note key. -/
def notesAutosaveWrites (day : String) (evs : List (Nat × String)) :
    List (String × String) :=
  (debRun 500 evs).map (fun v => (notesKeyBase ++ day, v))

/-- The platform speech-synthesis queue, as the list of queued utterance
texts (head = currently speaking). -/
abbrev SpeechQueue := List String

/-- Embeds `window.speechSynthesis.cancel()`: drops every queued utterance. -/
def speechCancel (_q : SpeechQueue) : SpeechQueue := []

/-- Embeds `window.speechSynthesis.speak(u)`: appends the utterance to the queue. -/
def speechSpeak (q : SpeechQueue) (u : String) : SpeechQueue := q ++ [u]

/-- Embeds `GermanLearningApp.playAudio(text, btn)`, lines 259-289, restricted to its
speech-queue effect: `cancel()` first (line 260), then `speak` (line 288);
voice selection and button styling do not touch the queue. -/
def playAudioQueue (q : SpeechQueue) (text : String) : SpeechQueue :=
  speechSpeak (speechCancel q) text

/-- A write-failure oracle under which every write succeeds (witness runs). -/
def noFail : String → String → Bool := fun _ _ => false

/-- A write-failure oracle under which every write fails (witness runs). -/
def allFail : String → String → Bool := fun _ _ => true

/-- A parse function with no successful parse, enough for witness runs whose
stores hold no progress entry. -/
def parseNone : String → Option ProgressMap := fun _ => none

/-- A concrete stringifier for witness runs: one `k=v;` chunk per entry. -/
def wStringify (m : ProgressMap) : String :=
  String.join (m.map (fun p => p.1 ++ "=" ++ p.2 ++ ";"))

/-- The decoding table backing `wParse`: the encodings of the concrete maps
the witness runs store. -/
def wTable : List (String × ProgressMap) :=
  [("3=completed;", [("3", "completed")]),
   ("3=in-progress;", [("3", "in-progress")])]

/-- A concrete parse function for witness runs, inverse to `wStringify` on
the maps listed in `wTable`. -/
def wParse (s : String) : Option ProgressMap :=
  (wTable.find? (fun p => p.1 == s)).map (fun p => p.2)

/-! Helper lemmas. -/

theorem ProgressMap.getProp_setProp_self (m : ProgressMap) (day state : String) :
    (m.setProp day state).getProp day = some state := by
  simp [ProgressMap.getProp, ProgressMap.setProp]

theorem find?_filter_erased (m : List (String × String)) (day d : String)
    (h : d ≠ day) :
    (m.filter (fun p => !(p.1 == day))).find? (fun p => p.1 == d)
      = m.find? (fun p => p.1 == d) := by
  induction m with
  | nil => rfl
  | cons p m ih =>
    cases hp : (p.1 == day) with
    | true =>
      have hpd : (p.1 == d) = false := by
        have h1 : p.1 = day := by simpa using hp
        simp [h1]
        exact fun hd => h hd.symm
      simp [List.filter_cons, hp, List.find?_cons, hpd, ih]
    | false =>
      cases hd : (p.1 == d) with
      | true => simp [List.filter_cons, hp, List.find?_cons, hd]
      | false => simp [List.filter_cons, hp, List.find?_cons, hd, ih]

theorem ProgressMap.getProp_setProp_ne (m : ProgressMap) (day state d : String)
    (h : d ≠ day) :
    (m.setProp day state).getProp d = m.getProp d := by
  have hd : (day == d) = false := by
    simp
    exact fun hd => h hd.symm
  simp only [ProgressMap.getProp, ProgressMap.setProp, List.find?_cons, hd]
  rw [find?_filter_erased m day d h]

theorem storage.get_cons_some {α : Type} (parse : String → Option α)
    (st : Store) (k v : String) (fb : α) (a : α)
    (hne : v ≠ "") (hp : parse v = some a) :
    storage.get parse ((k, v) :: st) k fb = a := by
  simp [storage.get, Store.getItem, List.find?_cons, hne, hp]

theorem get_after_saveProgress (parse : String → Option ProgressMap)
    (stringify : ProgressMap → String) (fail : String → String → Bool)
    (st : Store) (day state : String)
    (hfail : fail progressKey
      (stringify ((storage.get parse st progressKey []).setProp day state)) = false)
    (hround : parse (stringify ((storage.get parse st progressKey []).setProp day state))
      = some ((storage.get parse st progressKey []).setProp day state))
    (hne : stringify ((storage.get parse st progressKey []).setProp day state) ≠ "") :
    storage.get parse (saveProgress parse stringify fail st day state) progressKey
      ([] : ProgressMap)
      = (storage.get parse st progressKey []).setProp day state := by
  have hstore : saveProgress parse stringify fail st day state
      = (progressKey,
          stringify ((storage.get parse st progressKey []).setProp day state)) :: st := by
    simp [saveProgress, storage.set, Store.setItem, hfail]
  rw [hstore]
  exact storage.get_cons_some parse st progressKey _ _ _ hne hround

/-! Claim theorems. -/

/-- Claim C3, counterexample: a failing raw write through `storage.setString`
(quota oracle always failing, prior entry present) is not caught — the
exception propagates to the caller as `Except.error ()`, refuting "no write
failure propagates to the caller". -/
theorem C3_counterexample :
    storage.setString allFail [("k", "old")] "k" "new" = Except.error () := rfl

/-- Claim C3, amended: the JSON-encoding `storage.set` catches any write
failure, drops the write and leaves the prior store untouched, while the
raw-string `storage.setString` has no catch: a write failure propagates to
its caller (and a successful raw write stores the value). -/
theorem C3_amended_set_catches_setString_throws {α : Type}
    (stringify : α → String) (fail : String → String → Bool)
    (st : Store) (key val : String) (value : α) :
    (fail key (stringify value) = true →
      storage.set stringify fail st key value = st) ∧
    (fail key (stringify value) = false →
      storage.set stringify fail st key value = (key, stringify value) :: st) ∧
    (fail key val = true →
      storage.setString fail st key val = Except.error ()) ∧
    (fail key val = false →
      storage.setString fail st key val = Except.ok ((key, val) :: st)) := by
  refine ⟨?_, ?_, ?_, ?_⟩ <;> intro h <;>
    simp [storage.set, storage.setString, Store.setItem, h]

/-- Claim C3, witness for the amended theorem at concrete inputs. -/
theorem C3_amended_witness :
    storage.set wStringify allFail [("k", "old")] "k" ([] : ProgressMap)
      = [("k", "old")] ∧
    storage.setString noFail [] "k" "v" = Except.ok [("k", "v")] :=
  ⟨(C3_amended_set_catches_setString_throws wStringify allFail
      [("k", "old")] "k" "v" []).1 rfl,
   (C3_amended_set_catches_setString_throws wStringify noFail
      [] "k" "v" []).2.2.2 rfl⟩

/-- Claim C4, counterexample: with no stored entry for day `3`, the day-page
status badge (`updateDayStatusLabel`, line 210) renders state
`"in-progress"`, not the `"incomplete"` the claim asserts. -/
theorem C4_counterexample :
    badgeState parseNone [] "3" = "in-progress" ∧
    ¬ badgeState parseNone [] "3" = "incomplete" := by
  constructor
  · rfl
  · decide

/-- Claim C4, amended: an absent progress entry defaults to `"incomplete"`
in the index-page card rendering, but to `"in-progress"` in the day-page
status-badge rendering. -/
theorem C4_amended_defaults (parse : String → Option ProgressMap)
    (st : Store) (day : String)
    (h : (storage.get parse st progressKey ([] : ProgressMap)).getProp day = none) :
    readCardState parse st day = "incomplete" ∧
    badgeState parse st day = "in-progress" := by
  simp [readCardState, badgeState, h, jsOrString]

/-- Claim C4, witness for the amended theorem at a concrete empty store. -/
theorem C4_amended_witness :
    readCardState parseNone [] "3" = "incomplete" ∧
    badgeState parseNone [] "3" = "in-progress" :=
  C4_amended_defaults parseNone [] "3" rfl

/-- Claim C5, counterexample: with current language `"fr"` (reachable, since
`setLanguage` persists any string unvalidated), the badge label expression
`labels[currentLang][state]` indexes `undefined` and throws, refuting "for
every current language value … the label lookup never fails". -/
theorem C5_counterexample :
    updateDayStatusLabelText parseNone [] "fr" "3" = Except.error () := rfl

/-- Claim C5, amended: the badge label lookup is total exactly for the two
table languages — for `"en"` and `"hi"` it always produces a label value for
any state (falling back to the English table entry when the language entry is
missing), while for any other current language it throws a `TypeError`. -/
theorem C5_amended_total_iff_known_lang (parse : String → Option ProgressMap)
    (st : Store) (lang day : String) :
    (lang = "en" ∨ lang = "hi" →
      ∃ r, updateDayStatusLabelText parse st lang day = Except.ok r) ∧
    (lang ≠ "en" → lang ≠ "hi" →
      updateDayStatusLabelText parse st lang day = Except.error ()) := by
  constructor
  · rintro (rfl | rfl)
    · cases h : jsIndex enTable (badgeState parse st day) with
      | none =>
        exact ⟨jsIndex enTable (badgeState parse st day),
          by simp [updateDayStatusLabelText, labelTextOf, statusLabels, h]⟩
      | some s =>
        by_cases hs : s = ""
        · exact ⟨jsIndex enTable (badgeState parse st day),
            by simp [updateDayStatusLabelText, labelTextOf, statusLabels, h, hs]⟩
        · exact ⟨some s,
            by simp [updateDayStatusLabelText, labelTextOf, statusLabels, h, hs]⟩
    · cases h : jsIndex hiTable (badgeState parse st day) with
      | none =>
        exact ⟨jsIndex enTable (badgeState parse st day),
          by simp [updateDayStatusLabelText, labelTextOf, statusLabels, h]⟩
      | some s =>
        by_cases hs : s = ""
        · exact ⟨jsIndex enTable (badgeState parse st day),
            by simp [updateDayStatusLabelText, labelTextOf, statusLabels, h, hs]⟩
        · exact ⟨some s,
            by simp [updateDayStatusLabelText, labelTextOf, statusLabels, h, hs]⟩
  · intro h1 h2
    unfold updateDayStatusLabelText labelTextOf
    have e1 : (("en", enTable).1 == lang) = false := by
      simp
      exact fun hc => h1 hc.symm
    have e2 : (("hi", hiTable).1 == lang) = false := by
      simp
      exact fun hc => h2 hc.symm
    simp [statusLabels, List.find?_cons, e1, e2]

/-- Claim C5, witness for the amended theorem: the English lookup succeeds on
an empty store, and the unknown language `"de"` throws. -/
theorem C5_amended_witness :
    (∃ r, updateDayStatusLabelText parseNone [] "en" "3" = Except.ok r) ∧
    updateDayStatusLabelText parseNone [] "de" "3" = Except.error () :=
  ⟨(C5_amended_total_iff_known_lang parseNone [] "en" "3").1 (Or.inl rfl),
   (C5_amended_total_iff_known_lang parseNone [] "de" "3").2
     (by decide) (by decide)⟩

/-- Claim C6: `storage.get(key, fallback)` returns the parsed stored value
when the key is present and parsing succeeds, and the fallback when the key
is absent or parsing fails; the parse error is caught (the result is total —
no error escapes). The hypothesis `parse "" = none` records that an empty
stored string (skipped unparsed by the falsy check in the source) is not
valid JSON, so the two descriptions agree on it. -/
theorem C6_get_parsed_or_fallback {α : Type} (parse : String → Option α)
    (st : Store) (key : String) (fallback : α)
    (hjson : parse "" = none) :
    (Store.getItem st key = none → storage.get parse st key fallback = fallback) ∧
    (∀ item v, Store.getItem st key = some item → parse item = some v →
      storage.get parse st key fallback = v) ∧
    (∀ item, Store.getItem st key = some item → parse item = none →
      storage.get parse st key fallback = fallback) := by
  refine ⟨?_, ?_, ?_⟩
  · intro h
    simp [storage.get, h]
  · intro item v hitem hparse
    have hne : ¬ item = "" := by
      intro he
      rw [he, hjson] at hparse
      exact Option.noConfusion hparse
    simp [storage.get, hitem, hne, hparse]
  · intro item hitem hparse
    by_cases hne : item = ""
    · simp [storage.get, hitem, hne]
    · simp [storage.get, hitem, hne, hparse]

/-- Claim C6, witness: a present parsable entry is returned parsed, an absent
key yields the fallback. -/
theorem C6_witness :
    storage.get wParse [("k", "3=completed;")] "k" ([] : ProgressMap)
      = [("3", "completed")] ∧
    storage.get wParse [] "k" ([("9", "x")] : ProgressMap) = [("9", "x")] :=
  ⟨(C6_get_parsed_or_fallback wParse [("k", "3=completed;")] "k" [] rfl).2.1
      "3=completed;" [("3", "completed")] rfl rfl,
   (C6_get_parsed_or_fallback wParse [] "k" [("9", "x")] rfl).1 rfl⟩

/-- Claim C7: saving note text `V` for day `D` (the debounced handler body,
line 309) and then re-initializing the notes editor (lines 304-305, fresh
textarea) loads exactly `V`; the empty string yields empty content, because
the falsy saved value skips the assignment and the textarea keeps its empty
markup-initial value. -/
theorem C7_note_roundtrip (fail : String → String → Bool) (st : Store)
    (day v : String)
    (hfail : fail (notesKeyBase ++ day) v = false) :
    saveNote fail st day v = Except.ok ((notesKeyBase ++ day, v) :: st) ∧
    notesLoadedValue ((notesKeyBase ++ day, v) :: st) day = v := by
  constructor
  · simp [saveNote, storage.setString, Store.setItem, hfail]
  · by_cases hv : v = ""
    · simp [notesLoadedValue, storage.getString, Store.getItem,
        List.find?_cons, hv]
    · simp [notesLoadedValue, storage.getString, Store.getItem,
        List.find?_cons, hv]

/-- Claim C7, witness: a nonempty note and the empty note both round-trip on
a concrete store. -/
theorem C7_witness :
    (saveNote noFail [] "3" "der Hund" = Except.ok [(notesKeyBase ++ "3", "der Hund")] ∧
      notesLoadedValue [(notesKeyBase ++ "3", "der Hund")] "3" = "der Hund") ∧
    (saveNote noFail [(notesKeyBase ++ "3", "alt")] "3" "" =
        Except.ok [(notesKeyBase ++ "3", ""), (notesKeyBase ++ "3", "alt")] ∧
      notesLoadedValue [(notesKeyBase ++ "3", ""), (notesKeyBase ++ "3", "alt")] "3" = "") :=
  ⟨C7_note_roundtrip noFail [] "3" "der Hund" rfl,
   C7_note_roundtrip noFail [(notesKeyBase ++ "3", "alt")] "3" "" rfl⟩

/-- Claim C9: every pronunciation click first cancels the platform speech
queue and only then speaks the new utterance (lines 260 and 288), so
afterwards the queue holds exactly the new utterance: at most one utterance
is active and none is queued behind another. -/
theorem C9_playAudio_preempts (q : SpeechQueue) (text : String) :
    playAudioQueue q text = [text] := rfl

/-- Claim C10: `setLanguage(s)` stores `s` as the in-memory language and
persists it verbatim for every string `s` — no membership validation — and
the `{en, hi}` validation (falling back to `en`) happens only when
`initLanguage` reads the persisted value back on the next load. -/
theorem C10_setLanguage_unvalidated (fail : String → String → Bool)
    (st : Store) (s : String)
    (hfail : fail langKey s = false) :
    (setLanguage fail st s).1 = s ∧
    (setLanguage fail st s).2 = Except.ok ((langKey, s) :: st) ∧
    storage.getString ((langKey, s) :: st) langKey = some s ∧
    initLanguage ((langKey, s) :: st) =
      (if s = "en" ∨ s = "hi" then s else "en") := by
  refine ⟨rfl, ?_, ?_, ?_⟩
  · simp [setLanguage, storage.setString, Store.setItem, hfail]
  · simp [storage.getString, Store.getItem, List.find?_cons]
  · simp [initLanguage, storage.getString, Store.getItem, List.find?_cons,
      defaultLang]

/-- Claim C10, witness: the out-of-set language `"fr"` is persisted verbatim
by `setLanguage` and only `initLanguage` falls back to `"en"`. -/
theorem C10_witness :
    (setLanguage noFail [] "fr").1 = "fr" ∧
    (setLanguage noFail [] "fr").2 = Except.ok [(langKey, "fr")] ∧
    storage.getString [(langKey, "fr")] langKey = some "fr" ∧
    initLanguage [(langKey, "fr")] =
      (if "fr" = "en" ∨ "fr" = "hi" then "fr" else "en") :=
  C10_setLanguage_unvalidated noFail [] "fr" rfl

/-- Claim C1: saving progress state `S` for a valid day `day` and reloading
the progress map through the index-page read yields exactly `S` for `day`,
and `"incomplete"` for a day `d2` whose entry was never written. The
`hround`/`hne` hypotheses are the platform JSON round-trip for the one
object written, and `hfail` says the write is not hit by a quota failure. -/
theorem C1_saveProgress_roundtrip (parse : String → Option ProgressMap)
    (stringify : ProgressMap → String) (fail : String → String → Bool)
    (st : Store) (day S d2 : String)
    (hS : S = "incomplete" ∨ S = "in-progress" ∨ S = "completed")
    (hfail : fail progressKey
      (stringify ((storage.get parse st progressKey []).setProp day S)) = false)
    (hround : parse (stringify ((storage.get parse st progressKey []).setProp day S))
      = some ((storage.get parse st progressKey []).setProp day S))
    (hne : stringify ((storage.get parse st progressKey []).setProp day S) ≠ "")
    (hd2 : d2 ≠ day)
    (huntouched : (storage.get parse st progressKey []).getProp d2 = none) :
    readCardState parse (saveProgress parse stringify fail st day S) day = S ∧
    readCardState parse (saveProgress parse stringify fail st day S) d2
      = "incomplete" := by
  have hget := get_after_saveProgress parse stringify fail st day S hfail hround hne
  constructor
  · rw [readCardState, hget, ProgressMap.getProp_setProp_self]
    rcases hS with h | h | h <;> simp [jsOrString, h]
  · rw [readCardState, hget, ProgressMap.getProp_setProp_ne _ _ _ _ hd2,
      huntouched]
    rfl

/-- Claim C1, witness: on an empty store, saving `"completed"` for day `3`
reloads as `"completed"` for day `3` and `"incomplete"` for day `4`. -/
theorem C1_witness :
    readCardState wParse (saveProgress wParse wStringify noFail [] "3" "completed") "3"
      = "completed" ∧
    readCardState wParse (saveProgress wParse wStringify noFail [] "3" "completed") "4"
      = "incomplete" :=
  C1_saveProgress_roundtrip wParse wStringify noFail [] "3" "completed" "4"
    (Or.inr (Or.inr rfl)) rfl (by decide) (by decide) (by decide) rfl

/-- Claim C2: `initDayPage(day)` writes `"in-progress"` for `day` exactly
when the stored state is absent or `"incomplete"` (after which the stored
state reads back `"in-progress"`, so a repeated visit in that state is
idempotent), and leaves the store unchanged when the stored state is
`"completed"` — or `"in-progress"`, which gives the "exactly". -/
theorem C2_initDayPage_transition (parse : String → Option ProgressMap)
    (stringify : ProgressMap → String) (fail : String → String → Bool)
    (st : Store) (day : String)
    (hfail : fail progressKey
      (stringify ((storage.get parse st progressKey []).setProp day "in-progress"))
      = false)
    (hround : parse
        (stringify ((storage.get parse st progressKey []).setProp day "in-progress"))
      = some ((storage.get parse st progressKey []).setProp day "in-progress"))
    (hne : stringify ((storage.get parse st progressKey []).setProp day "in-progress")
      ≠ "") :
    ((dayCurrentStatus parse st day = none ∨
        dayCurrentStatus parse st day = some "incomplete") →
      initDayPage parse stringify fail st day
          = saveProgress parse stringify fail st day "in-progress" ∧
        dayCurrentStatus parse (initDayPage parse stringify fail st day) day
          = some "in-progress") ∧
    (dayCurrentStatus parse st day = some "completed" →
      initDayPage parse stringify fail st day = st) ∧
    (dayCurrentStatus parse st day = some "in-progress" →
      initDayPage parse stringify fail st day = st) := by
  refine ⟨?_, ?_, ?_⟩
  · intro hcur
    have hwrite : initDayPage parse stringify fail st day
        = saveProgress parse stringify fail st day "in-progress" := by
      rcases hcur with h | h <;> simp [initDayPage, h]
    refine ⟨hwrite, ?_⟩
    rw [hwrite, dayCurrentStatus,
      get_after_saveProgress parse stringify fail st day "in-progress" hfail hround hne,
      ProgressMap.getProp_setProp_self]
  · intro h
    simp [initDayPage, h]
  · intro h
    simp [initDayPage, h]

/-- Claim C2, witness: a first visit on an empty store writes
`"in-progress"`, and a visit with stored `"completed"` leaves the store
unchanged. -/
theorem C2_witness :
    (initDayPage wParse wStringify noFail [] "3"
        = saveProgress wParse wStringify noFail [] "3" "in-progress" ∧
      dayCurrentStatus wParse (initDayPage wParse wStringify noFail [] "3") "3"
        = some "in-progress") ∧
    initDayPage wParse wStringify noFail [(progressKey, "3=completed;")] "3"
      = [(progressKey, "3=completed;")] :=
  ⟨(C2_initDayPage_transition wParse wStringify noFail [] "3"
      rfl (by decide) (by decide)).1 (Or.inl rfl),
   (C2_initDayPage_transition wParse wStringify noFail
      [(progressKey, "3=completed;")] "3" rfl (by decide) (by decide)).2.1
      (by decide)⟩

/-- One debounced pending write survives a rapid event trace: while every
next event arrives before the pending fire time, the pending write is
cancelled and rescheduled, and the single surviving write carries the last
event's value. -/
theorem debAux_rapid (wait : Nat) (evs : List (Nat × String)) :
    ∀ (t : Nat) (v : String), rapid wait ((t, v) :: evs) = true →
      ∃ last, ((t, v) :: evs).getLast? = some last ∧
        debAux wait t v evs = [last.2] := by
  induction evs with
  | nil => exact fun t v _ => ⟨(t, v), rfl, rfl⟩
  | cons p rest ih =>
    rintro t v h
    rcases p with ⟨t2, v2⟩
    rw [rapid] at h
    rcases Bool.and_eq_true_iff.mp h with ⟨h1, h2⟩
    have hlt : t2 < t + wait := of_decide_eq_true h1
    rcases ih t2 v2 h2 with ⟨last, hl, he⟩
    refine ⟨last, ?_, ?_⟩
    · rw [List.getLast?_cons_cons]
      exact hl
    · rw [debAux, if_neg (Nat.not_le.mpr hlt)]
      exact he

/-- Claim C8: a finite nonempty input-event sequence whose consecutive gaps
are all shorter than the 500 ms debounce wait produces exactly one storage
write under the day's note key, holding the final event's value; each new
event cancelled the previously pending write. -/
theorem C8_debounced_single_write (day : String) (t : Nat) (v : String)
    (evs : List (Nat × String))
    (hrapid : rapid 500 ((t, v) :: evs) = true) :
    ∃ last, ((t, v) :: evs).getLast? = some last ∧
      notesAutosaveWrites day ((t, v) :: evs)
        = [(notesKeyBase ++ day, last.2)] := by
  rcases debAux_rapid 500 evs t v hrapid with ⟨last, hl, he⟩
  exact ⟨last, hl, by simp [notesAutosaveWrites, debRun, he]⟩

/-- Claim C8, witness: three keystrokes 100 ms and 200 ms apart yield one
write with the final text. -/
theorem C8_witness :
    ∃ last, ([((0 : Nat), "a"), (100, "ab"), (300, "abc")]).getLast? = some last ∧
      notesAutosaveWrites "3" [(0, "a"), (100, "ab"), (300, "abc")]
        = [(notesKeyBase ++ "3", last.2)] :=
  C8_debounced_single_write "3" 0 "a" [(100, "ab"), (300, "abc")] (by decide)
